import Mathlib

/-!
Verification of the devcontainer launcher (code-code-server) against its
natural-language specification.

The development shallowly embeds the Go sources:
  * package devcontainer (descriptor data model),
  * package dockerfile (Dockerfile synthesis: WrapDockerFile and helpers),
  * package project (image tag, interpolation, service URL pieces,
    container supervision: NewContainerContext, ContainerContext.Run/stop).

External collaborators that are not part of the repository are modelled by
executable Lean functions mirroring their documented behaviour:
  * encoding/base64 StdEncoding (implemented bit-for-bit below),
  * encoding/json marshalling with two-space indentation and sorted map keys,
  * flynn/json5 Unmarshal (modelled by a strict JSON subset parser: wherever
    the model parser succeeds, the real parser succeeds with the same value),
  * imdario/mergo Merge on string-keyed maps (null source entries are
    skipped, a collision keeps a non-empty destination value, overwrites an
    empty one and deep-merges nested objects, missing keys are inserted),
  * buildkite/interpolate (dollar-brace template expansion; an unset variable
    expands to the empty string without error).

Go strings are modelled at the level of their character sequences; the byte
view used by base64 maps each character to its code modulo 256, which agrees
with UTF-8 on the ASCII content the program manipulates.

Effects are made explicit: reading a file goes through a `FileSystem`
valuation, the settings store is a `Repository` valuation, the in-place
mutation of the descriptor settings map performed through mergo aliasing is
returned as an explicit post-state, and the container engine and OS signals
are modelled by small state/trace types.
-/

/-- JSON values as decoded by the launcher: objects are association lists in
document order (Go map iteration order is abstracted; serialization sorts). -/
inductive Json where
  | str (s : String)
  | num (n : Int)
  | bool (b : Bool)
  | null
  | arr (elems : List Json)
  | obj (fields : List (String × Json))

/-- Build section of the descriptor, mirroring the anonymous struct in
devcontainer.DevContainer (field `args` is a string-to-string mapping,
modelled as an association list). -/
structure BuildSection where
  dockerfile : String
  context : String
  args : List (String × String)

/-- The parsed devcontainer descriptor, mirroring devcontainer.DevContainer.
Go nil-versus-empty for the `settings` map is kept via `Option` because the
code branches on it; absent fields take zero values. -/
structure DevContainer where
  dirPath : String
  name : String
  build : BuildSection
  runArgs : List String
  workspaceMount : String
  workspaceFolder : String
  settings : Option (List (String × Json))
  extensions : List String
  forwardPorts : List String
  postCreateCommand : String
  remoteUser : String

/-- Zero-valued descriptor (Go zero value of the struct, as in the unit test
`DevContainer{}`). -/
def emptyDevContainer : DevContainer :=
  { dirPath := "", name := "", build := { dockerfile := "", context := "", args := [] },
    runArgs := [], workspaceMount := "", workspaceFolder := "", settings := none,
    extensions := [], forwardPorts := [], postCreateCommand := "", remoteUser := "" }

/-- Go strings.Join with the given separator. -/
def goJoin (sep : String) : List String → String
  | [] => ""
  | [x] => x
  | x :: y :: xs => x ++ sep ++ goJoin sep (y :: xs)

/-- Bytes of a Go string. Characters are mapped to their code modulo 256;
this coincides with the UTF-8 bytes for ASCII content. -/
def strBytes (s : String) : List Nat := s.data.map (fun c => c.toNat % 256)

/-- Standard base64 alphabet, as used by Go encoding/base64 StdEncoding. -/
def b64Alphabet : List Char :=
  "ABCDEFGHIJKLMNOPQRSTUVWXYZabcdefghijklmnopqrstuvwxyz0123456789+/".data

/-- Character for a 6-bit group. -/
def b64Chr (n : Nat) : Char := b64Alphabet.getD n '?'

/-- Index of a character in the base64 alphabet. -/
def b64Ord (c : Char) : Nat := b64Alphabet.indexOf c

/-- Base64 encoding of a byte list with standard padding (Go
base64.StdEncoding.EncodeToString). -/
def b64Encode : List Nat → List Char
  | [] => []
  | [b0] => [b64Chr (b0 / 4), b64Chr (b0 % 4 * 16), '=', '=']
  | [b0, b1] => [b64Chr (b0 / 4), b64Chr (b0 % 4 * 16 + b1 / 16), b64Chr (b1 % 16 * 4), '=']
  | b0 :: b1 :: b2 :: rest =>
      b64Chr (b0 / 4) :: b64Chr (b0 % 4 * 16 + b1 / 16) :: b64Chr (b1 % 16 * 4 + b2 / 64)
        :: b64Chr (b2 % 64) :: b64Encode rest

/-- Base64 decoding (inverse direction, used to state the payload claims). -/
def b64Decode : List Char → List Nat
  | c0 :: c1 :: c2 :: c3 :: rest =>
      let n0 := b64Ord c0
      let n1 := b64Ord c1
      if c2 = '=' then [n0 * 4 + n1 / 16]
      else
        let n2 := b64Ord c2
        if c3 = '=' then [n0 * 4 + n1 / 16, n1 % 16 * 16 + n2 / 4]
        else (n0 * 4 + n1 / 16) :: (n1 % 16 * 16 + n2 / 4) :: (n2 % 4 * 64 + b64Ord c3)
          :: b64Decode rest
  | _ => []

/-- Base64 encoding of a Go string, as a string. -/
def b64OfString (s : String) : String := ⟨b64Encode (strBytes s)⟩

/-- Lowercase hexadecimal digit, as emitted by encoding/json escapes. -/
def hexDigit (n : Nat) : Char := "0123456789abcdef".data.getD n '0'

/-- Escape of one character inside a JSON string, following encoding/json
with SetEscapeHTML(false): quote, backslash, newline, carriage return and
tab have short escapes, other control characters use a u-escape, everything
else is emitted verbatim. -/
def escChar (c : Char) : List Char :=
  if c = '"' then ['\\', '"']
  else if c = '\\' then ['\\', '\\']
  else if c = '\n' then ['\\', 'n']
  else if c = '\r' then ['\\', 'r']
  else if c = '\t' then ['\\', 't']
  else if c.toNat < 32 then ['\\', 'u', '0', '0', hexDigit (c.toNat / 16), hexDigit (c.toNat % 16)]
  else [c]

/-- Quoted JSON string literal. -/
def quoteStr (s : String) : String := ⟨'"' :: (s.data.map escChar).flatten ++ ['"']⟩

/-- Two-space indentation at the given depth, as produced by json.Indent
with prefix "" and indent "  ". -/
def indentStr (depth : Nat) : String := ⟨List.replicate (2 * depth) ' '⟩

mutual

/-- Rendering of a JSON value with json.Indent layout: elements of non-empty
composites go one per line at the next depth, empty composites stay compact,
and a colon is followed by one space. -/
def renderJson (depth : Nat) : Json → String
  | Json.str s => quoteStr s
  | Json.num n => toString n
  | Json.bool b => if b then "true" else "false"
  | Json.null => "null"
  | Json.arr [] => "[]"
  | Json.arr (x :: xs) =>
      "[\n" ++ renderElems (depth + 1) (x :: xs) ++ "\n" ++ indentStr depth ++ "]"
  | Json.obj [] => "\x7b\x7d"
  | Json.obj (f :: fs) =>
      "\x7b\n" ++ renderFields (depth + 1) (f :: fs) ++ "\n" ++ indentStr depth ++ "\x7d"

/-- Comma-and-newline separated array elements. -/
def renderElems (depth : Nat) : List Json → String
  | [] => ""
  | [x] => indentStr depth ++ renderJson depth x
  | x :: y :: xs =>
      indentStr depth ++ renderJson depth x ++ ",\n" ++ renderElems depth (y :: xs)

/-- Comma-and-newline separated object fields. -/
def renderFields (depth : Nat) : List (String × Json) → String
  | [] => ""
  | [(k, v)] => indentStr depth ++ quoteStr k ++ ": " ++ renderJson depth v
  | (k, v) :: g :: fs =>
      indentStr depth ++ quoteStr k ++ ": " ++ renderJson depth v ++ ",\n"
        ++ renderFields depth (g :: fs)

end

/-- Serialization used by dockerfile.dumpAsJson: encoding/json Encoder with
SetEscapeHTML(false) followed by json.Indent with two-space indent; the
Encoder appends a trailing newline which Indent keeps. -/
def dumpAsJson (j : Json) : String := renderJson 0 j ++ "\n"

/-- Ordered insertion by key, backing the sorted-key map serialization. -/
def insertField (p : String × Json) : List (String × Json) → List (String × Json)
  | [] => [p]
  | q :: qs => if p.1 < q.1 then p :: q :: qs else q :: insertField p qs

/-- Insertion sort of object fields by key (encoding/json serializes Go maps
with keys in sorted order). -/
def sortFields : List (String × Json) → List (String × Json)
  | [] => []
  | p :: ps => insertField p (sortFields ps)

mutual

/-- Recursive key sort, applied to values decoded into nested Go maps before
marshalling (every object reached from a map[string]interface\x7b\x7d is a map). -/
def sortJsonDeep : Json → Json
  | Json.obj fs => Json.obj (sortFields (sortJsonFields fs))
  | Json.arr xs => Json.arr (sortJsonList xs)
  | j => j

/-- Pointwise deep sort of array elements. -/
def sortJsonList : List Json → List Json
  | [] => []
  | x :: xs => sortJsonDeep x :: sortJsonList xs

/-- Pointwise deep sort of field values. -/
def sortJsonFields : List (String × Json) → List (String × Json)
  | [] => []
  | (k, v) :: fs => (k, sortJsonDeep v) :: sortJsonFields fs

end

/-- Whitespace recognised by the JSON subset parser. -/
def isWsChar (c : Char) : Bool := c = ' ' || c = '\n' || c = '\t' || c = '\r'

/-- Drop leading whitespace. -/
def skipWs (cs : List Char) : List Char := cs.dropWhile isWsChar

/-- ASCII digit test. -/
def isDigitChar (c : Char) : Bool := '0' ≤ c && c ≤ '9'

/-- Decimal value of a digit run. -/
def natOfDigits (ds : List Char) : Nat := ds.foldl (fun a c => a * 10 + (c.toNat - 48)) 0

/-- Parse a non-empty digit run. -/
def pDigits (cs : List Char) : Option (Nat × List Char) :=
  let ds := cs.takeWhile isDigitChar
  if ds.isEmpty then none else some (natOfDigits ds, cs.drop ds.length)

/-- Parse the remainder of a string literal after the opening quote. The
model accepts only escape-free literals; this keeps it a strict subset of
what flynn/json5 accepts, with identical results where it succeeds. -/
def pStr (cs : List Char) : Option (String × List Char) :=
  let content := cs.takeWhile (fun c => c ≠ '"' && c ≠ '\\')
  match cs.drop content.length with
  | '"' :: rest => some (⟨content⟩, rest)
  | _ => none

mutual

/-- Parse one JSON value. The fuel only bounds nesting and list length; it is
chosen large enough in json5Parse that it never runs out on an accepted
document. -/
def pVal : Nat → List Char → Option (Json × List Char)
  | 0, _ => none
  | fuel + 1, cs =>
    match skipWs cs with
    | '\x7b' :: rest =>
        match skipWs rest with
        | '\x7d' :: rest2 => some (Json.obj [], rest2)
        | rest2 => (pFieldList fuel rest2 []).map (fun p => (Json.obj p.1, p.2))
    | '[' :: rest =>
        match skipWs rest with
        | ']' :: rest2 => some (Json.arr [], rest2)
        | rest2 => (pElemList fuel rest2 []).map (fun p => (Json.arr p.1, p.2))
    | '"' :: rest => (pStr rest).map (fun p => (Json.str p.1, p.2))
    | 'n' :: 'u' :: 'l' :: 'l' :: rest => some (Json.null, rest)
    | 't' :: 'r' :: 'u' :: 'e' :: rest => some (Json.bool true, rest)
    | 'f' :: 'a' :: 'l' :: 's' :: 'e' :: rest => some (Json.bool false, rest)
    | '-' :: rest => (pDigits rest).map (fun p => (Json.num (-(p.1 : Int)), p.2))
    | cs2 => (pDigits cs2).map (fun p => (Json.num (p.1 : Int), p.2))

/-- Parse the fields of a non-empty object; duplicate keys are rejected
(a conservative restriction of the subset). -/
def pFieldList : Nat → List Char → List (String × Json) →
    Option (List (String × Json) × List Char)
  | 0, _, _ => none
  | fuel + 1, cs, acc =>
    match skipWs cs with
    | '"' :: rest =>
      match pStr rest with
      | none => none
      | some (key, rest2) =>
        if (acc.find? (fun p => p.1 = key)).isSome then none
        else
          match skipWs rest2 with
          | ':' :: rest3 =>
            match pVal fuel rest3 with
            | none => none
            | some (v, rest4) =>
              match skipWs rest4 with
              | ',' :: rest5 => pFieldList fuel rest5 (acc ++ [(key, v)])
              | '\x7d' :: rest5 => some (acc ++ [(key, v)], rest5)
              | _ => none
          | _ => none
    | _ => none

/-- Parse the elements of a non-empty array. -/
def pElemList : Nat → List Char → List Json → Option (List Json × List Char)
  | 0, _, _ => none
  | fuel + 1, cs, acc =>
    match pVal fuel cs with
    | none => none
    | some (v, rest) =>
      match skipWs rest with
      | ',' :: rest2 => pElemList fuel rest2 (acc ++ [v])
      | ']' :: rest2 => some (acc ++ [v], rest2)
      | _ => none

end

/-- Model of flynn/json5 Unmarshal into interface\x7b\x7d: parse one value and
require only whitespace afterwards. Strict JSON subset: wherever this
parser succeeds the real json5 parser succeeds with the same value. -/
def json5Parse (s : String) : Option Json :=
  match pVal (2 * s.data.length + 2) s.data with
  | some (v, rest) => if skipWs rest = [] then some v else none
  | none => none

/-- Model of json5.Unmarshal into map[string]interface\x7b\x7d: the document
must be an object. -/
def json5ParseObj (s : String) : Option (List (String × Json)) :=
  match json5Parse s with
  | some (Json.obj fs) => some fs
  | _ => none

/-- Settings store capability (settings.Repository.Get): some content on
success, none on any error. -/
def Repository : Type := String → Option String

/-- Emptiness test matching mergo's isEmptyValue on values decoded from
JSON: null, false, the number zero, the empty string, the empty array and
the empty object are empty. -/
def isEmptyValue : Json → Bool
  | Json.null => true
  | Json.bool b => !b
  | Json.num n => n == 0
  | Json.str s => s.isEmpty
  | Json.arr xs => xs.isEmpty
  | Json.obj fs => fs.isEmpty

/-- Replacement of the value stored under a key (SetMapIndex on an existing
key). -/
def setKey (dst : List (String × Json)) (k : String) (v : Json) :
    List (String × Json) :=
  dst.map (fun p => if p.1 = k then (p.1, v) else p)

/-- Worker of the mergo.Merge model, processing the source entries in order
against the destination. Per entry: a null source value is skipped; a key
absent from the destination is inserted; on a key collision two objects are
deep-merged, and otherwise the destination value is kept when non-empty and
overwritten by the source value when empty. The fuel is only a structural
bound for the nested-object recursion; mergoMerge supplies more than enough
for its source argument, so the fuel-exhausted branch is never taken. -/
def mergoRun : Nat → List (String × Json) → List (String × Json) → List (String × Json)
  | 0, dst, _ => dst
  | _ + 1, dst, [] => dst
  | fuel + 1, dst, (k, v) :: rest =>
    let dst2 :=
      match v with
      | Json.null => dst
      | _ =>
        match dst.find? (fun q => q.1 = k) with
        | none => dst ++ [(k, v)]
        | some (_, dv) =>
          match dv, v with
          | Json.obj dvf, Json.obj vf => setKey dst k (Json.obj (mergoRun fuel dvf vf))
          | _, _ => if isEmptyValue dv then setKey dst k v else dst
    mergoRun fuel dst2 rest

mutual

/-- Structural size of a JSON value, used as recursion fuel for the merge
model. -/
def jsonFuel : Json → Nat
  | Json.obj fs => 1 + jsonFieldsFuel fs
  | Json.arr xs => 1 + jsonListFuel xs
  | _ => 1

/-- Structural size of a JSON value list. -/
def jsonListFuel : List Json → Nat
  | [] => 1
  | x :: xs => 1 + jsonFuel x + jsonListFuel xs

/-- Structural size of a JSON field list. -/
def jsonFieldsFuel : List (String × Json) → Nat
  | [] => 1
  | (_, v) :: fs => 1 + jsonFuel v + jsonFieldsFuel fs

end

/-- Model of mergo.Merge(&dst, src) on string-keyed maps decoded from JSON:
null-valued source entries are skipped entirely; a key present in both maps
keeps the destination value when it is non-empty, is overwritten by the
source value when the destination value is empty (null, false, 0, the empty
string, the empty array or object), and deep-merges recursively when both
values are objects; keys absent from the destination are inserted. The
launcher passes the descriptor settings as destination, so a descriptor
entry survives a collision only when its value is non-empty. Abort-on-error
corners of the real library (an object colliding with a non-object) follow
the same empty/non-empty rule here; the library's error result is discarded
by the caller either way. -/
def mergoMerge (dst src : List (String × Json)) : List (String × Json) :=
  mergoRun (jsonFieldsFuel src) dst src

/-- Fetch-and-parse of the remote settings object under the fixed key
"settings.json", as performed inside dockerfile.createSettingJson; any
fetch or parse failure yields none. -/
def fetchRemoteSettings (repo : Repository) : Option (List (String × Json)) :=
  match repo "settings.json" with
  | some content => json5ParseObj content
  | none => none

/-- Embedding of dockerfile.createSettingJson. The first component is the
returned Dockerfile block. The second component is the caller-visible
descriptor after the call: Go maps are reference values, so when the
descriptor's settings map is non-nil, mergo.Merge writes its merge result
through that same map in place; with a nil settings map the code installs
a fresh local map and the descriptor is untouched. The error return of the
Go function is dead code (serialization of a decoded map cannot fail), so
the block is returned directly. -/
def createSettingJson (d : DevContainer) (repo : Repository) : String × DevContainer :=
  let settings := d.settings.getD []
  let merged := match fetchRemoteSettings repo with
    | some obj => mergoMerge settings obj
    | none => settings
  let contents := dumpAsJson (sortJsonDeep (Json.obj merged))
  let block := goJoin "\n"
    ["RUN mkdir -p /opt/code-server/.vscode/User",
     "RUN echo '" ++ b64OfString contents ++ "' | base64 -d > /opt/code-server/.vscode/User/settings.json"]
  let post := match d.settings, fetchRemoteSettings repo with
    | some m, some obj => { d with settings := some (mergoMerge m obj) }
    | _, _ => d
  (block, post)

/-- Key binding record (dockerfile.KeyBinding); the Go json tags are key,
command and when. -/
structure KeyBinding where
  key : String
  command : String
  whenClause : String

/-- Decoding of one keybinding object, as json.Unmarshal into KeyBinding:
declared fields must be strings when present and default to "" when absent;
unknown fields are ignored; a non-string value for a declared field is a
decode error. -/
def keyBindingOfJson (j : Json) : Option KeyBinding :=
  match j with
  | Json.obj fs =>
    let getStr := fun (name : String) =>
      match fs.find? (fun p => p.1 = name) with
      | none => some ""
      | some (_, Json.str s) => some s
      | some _ => none
    match getStr "key", getStr "command", getStr "when" with
    | some k, some c, some w => some ⟨k, c, w⟩
    | _, _, _ => none
  | _ => none

/-- Marshalling image of one KeyBinding: struct fields are serialized in
declaration order. -/
def keyBindingJson (kb : KeyBinding) : Json :=
  Json.obj [("key", Json.str kb.key), ("command", Json.str kb.command),
    ("when", Json.str kb.whenClause)]

/-- Decode-and-re-marshal value for an entire keybindings document
([]KeyBinding): a JSON array maps pointwise, and the nil slice decoded from
a null document marshals back as null. -/
def keyBindingsValue (j : Json) : Option Json :=
  match j with
  | Json.null => some Json.null
  | Json.arr xs =>
      match xs.mapM keyBindingOfJson with
      | some kbs => some (Json.arr (kbs.map keyBindingJson))
      | none => none
  | _ => none

/-- One iteration of the loop body of dockerfile.createKeybindingsJson for a
candidate file name: a fetch error, empty content, a parse error or a
marshalling failure all yield none (the loop continues), otherwise the
injection block is produced. -/
def tryKeybindingsFile (repo : Repository) (filename : String) : Option String :=
  match repo filename with
  | none => none
  | some contentsFromSync =>
    if contentsFromSync.length = 0 then none
    else
      match json5Parse contentsFromSync with
      | none => none
      | some j =>
        match keyBindingsValue j with
        | none => none
        | some v =>
          some (goJoin "\n"
            ["RUN mkdir -p /opt/code-server/.vscode/User",
             "RUN echo '" ++ b64OfString (dumpAsJson v) ++ "' | base64 -d > /opt/code-server/.vscode/User/keybindings.json"])

/-- Candidate remote file names, in the order the source array declares
them: the generic name first, then the Mac-specific name. -/
def keybindingsCandidateFiles : List String := ["keybindings.json", "keybindingsMac.json"]

/-- Embedding of dockerfile.createKeybindingsJson: first candidate whose
attempt succeeds wins; if none succeeds the block is the empty string. -/
def createKeybindingsJson (_d : DevContainer) (repo : Repository) : String :=
  (keybindingsCandidateFiles.findSome? (tryKeybindingsFile repo)).getD ""

/-- Candidate order as the specification words it (platform-specific name
first, then the generic name); refinement definition used to compare the
spec sentence with the code. -/
def createKeybindingsJsonSpecOrder (_d : DevContainer) (repo : Repository) : String :=
  (["keybindingsMac.json", "keybindings.json"].findSome? (tryKeybindingsFile repo)).getD ""

/-- Embedding of dockerfile.createEntryScriptCommands: shebang, shell flags,
the verbatim postCreateCommand (possibly empty) and the code-server launch
line. -/
def createEntryScriptCommands (d : DevContainer) : List String :=
  ["#!/bin/bash", "set -e", "set -x", d.postCreateCommand,
   "code-server --user-data-dir /opt/code-server/.vscode --config /opt/code-server/config.yml --bind-addr 0.0.0.0:8080"]

/-- Embedding of dockerfile.createEntryScript: the newline-joined script is
base64-embedded and made executable. -/
def createEntryScript (d : DevContainer) : String :=
  goJoin "\n"
    ["RUN mkdir -p /opt/code-server",
     "RUN echo '" ++ b64OfString (goJoin "\n" (createEntryScriptCommands d)) ++ "' | base64 -d > /opt/code-server/entrypoint.sh",
     "RUN chmod +x /opt/code-server/entrypoint.sh"]

/-- Embedding of dockerfile.installExtensions: one install line per entry in
declaration order. -/
def installExtensions (d : DevContainer) : String :=
  goJoin "\n" (d.extensions.map (fun v =>
    "RUN code-server --install-extension " ++ v ++ " --extensions-dir /opt/code-server/.vscode/extensions/"))

/-- Embedding of dockerfile.createConfigYaml (fixed auth-disabling line). -/
def createConfigYaml : String := "RUN echo \"auth: none\" > /opt/code-server/config.yml"

/-- Embedding of dockerfile.modifyCodeServerDirPermissions. -/
def modifyCodeServerDirPermissions : String := "RUN chmod -R o+wr /opt/code-server/"

/-- Fixed code-server installer line (constant CodeServerInstall). -/
def CodeServerInstall : String := "RUN curl -fsSL https://code-server.dev/install.sh | sh"

/-- Fixed entrypoint line (constant Entrypoint). -/
def Entrypoint : String := "ENTRYPOINT [\"/opt/code-server/entrypoint.sh\"]"

/-- File-system valuation standing for ioutil.ReadFile: content on success,
none on a read error. -/
def FileSystem : Type := String → Option String

/-- Model of filepath.Join for the two-argument uses in the launcher; path
cleaning is immaterial to the claims and is not modelled. -/
def joinPath (dir file : String) : String := if dir = "" then file else dir ++ "/" ++ file

/-- Embedding of dockerfile.WrapDockerFile: only the base-Dockerfile read
can fail; every other contribution is total here (the Go error branches of
the helper steps are unreachable), and the result is the newline join of
the nine parts in source order. -/
def WrapDockerFile (fs : FileSystem) (d : DevContainer) (repo : Repository) : Option String :=
  match fs (joinPath d.dirPath d.build.dockerfile) with
  | none => none
  | some dockerfile =>
    some (goJoin "\n"
      [dockerfile, CodeServerInstall, (createSettingJson d repo).1,
       createKeybindingsJson d repo, createEntryScript d, installExtensions d,
       createConfigYaml, modifyCodeServerDirPermissions, Entrypoint])

/-- Model of strings.ToLower (per-character lowering; the ASCII fragment is
all the claims depend on). -/
def goToLower (s : String) : String := ⟨s.data.map Char.toLower⟩

/-- Model of strings.ReplaceAll(s, " ", "_"): a single-character pattern
replacement is a character map. -/
def goReplaceSpace (s : String) : String :=
  ⟨s.data.map (fun c => if c = ' ' then '_' else c)⟩

/-- Embedding of project.getImageTag: lowercase the name, replace spaces by
underscores and append the fixed suffix. -/
def getImageTag (d : DevContainer) : String :=
  goReplaceSpace (goToLower d.name) ++ "_code_coder_server"

/-- Model of filepath.Dir restricted to slash-separated paths (no Clean
normalisation, which the claims never exercise): everything before the last
separator; "." when there is none; "/" when only the root remains. -/
def goDir (p : String) : String :=
  let afterStrip := p.data.reverse.dropWhile (fun c => c ≠ '/')
  if afterStrip.isEmpty then "."
  else
    let stripped := afterStrip.dropWhile (fun c => c = '/')
    if stripped.isEmpty then "/" else ⟨stripped.reverse⟩

/-- Model of filepath.Base under the same restriction: last path element
after removing trailing separators; "." for the empty path, "/" for the
root. -/
def goBase (p : String) : String :=
  if p = "" then "."
  else
    let cs := p.data.reverse.dropWhile (fun c => c = '/')
    if cs.isEmpty then "/" else ⟨(cs.takeWhile (fun c => c ≠ '/')).reverse⟩

/-- Parsed template item for buildkite/interpolate: a literal character or a
variable expansion. -/
inductive TmplItem where
  | text (c : Char)
  | var (name : String)

/-- Identifier characters of interpolate variable names. -/
def identChar (c : Char) : Bool := c.isAlpha || c.isDigit || c = '_'

/-- Parser for the interpolate template fragment the launcher uses: plain
text, a dollar-dollar escape, a brace-delimited expansion and a bare
dollar-identifier expansion. Malformed dollar sequences are parse errors;
the parameter expansion operators of the full library are outside the
fragment and rejected conservatively. -/
def parseTmpl (cs : List Char) : Option (List TmplItem) :=
  match cs with
  | [] => some []
  | c :: rest =>
    if c = '$' then
      match rest with
      | '$' :: rest2 => (parseTmpl rest2).map (fun l => TmplItem.text '$' :: l)
      | '\x7b' :: rest2 =>
          let name := rest2.takeWhile identChar
          match rest2.drop name.length with
          | '\x7d' :: _ =>
              if name.isEmpty then none
              else (parseTmpl (rest2.drop (name.length + 1))).map
                (fun l => TmplItem.var ⟨name⟩ :: l)
          | _ => none
      | c2 :: rest2 =>
          if identChar c2 then
            let name := (c2 :: rest2).takeWhile identChar
            (parseTmpl ((c2 :: rest2).drop name.length)).map
              (fun l => TmplItem.var ⟨name⟩ :: l)
          else none
      | [] => none
    else (parseTmpl rest).map (fun l => TmplItem.text c :: l)
termination_by cs.length
decreasing_by
  all_goals simp_wf
  all_goals omega

/-- Environment lookup of interpolate.NewMapEnv: an unset variable expands
to the empty string and is not an error. -/
def envGet (env : List (String × String)) (k : String) : String :=
  ((env.find? (fun p => p.1 = k)).map (fun p => p.2)).getD ""

/-- Expansion of one parsed item. -/
def renderItem (env : List (String × String)) : TmplItem → List Char
  | TmplItem.text c => [c]
  | TmplItem.var n => (envGet env n).data

/-- Expansion of a parsed template. -/
def renderTmpl (env : List (String × String)) (items : List TmplItem) : String :=
  ⟨(items.map (renderItem env)).flatten⟩

/-- Model of interpolate.Interpolate with a map environment. -/
def interpolate (env : List (String × String)) (tmpl : String) : Except String String :=
  match parseTmpl tmpl.data with
  | none => Except.error "invalid interpolation expression"
  | some items => Except.ok (renderTmpl env items)

/-- Embedding of project.getMapEnv: localWorkspaceFolder is the parent
directory of the descriptor directory, and localWorkspaceFolderBasename its
base name. -/
def getMapEnv (d : DevContainer) : List (String × String) :=
  [("localWorkspaceFolder", goDir d.dirPath),
   ("localWorkspaceFolderBasename", goBase (goDir d.dirPath))]

/-- Default workspace mount template used when the descriptor has no
workspaceMount override. -/
def defaultWorkspaceMount : String :=
  "source=${localWorkspaceFolder},target=/workspace/${localWorkspaceFolderBasename},type=bind"

/-- Default workspace folder template used when the descriptor has no
workspaceFolder override. -/
def defaultWorkspaceFolder : String := "/workspace/${localWorkspaceFolderBasename}"

/-- Embedding of project.getWorkspaceBinding. -/
def getWorkspaceBinding (d : DevContainer) : Except String String :=
  let workspaceMount := if d.workspaceMount = "" then defaultWorkspaceMount else d.workspaceMount
  interpolate (getMapEnv d) workspaceMount

/-- Embedding of project.getWorkspaceFolder. -/
def getWorkspaceFolder (d : DevContainer) : Except String String :=
  let workspaceFolder :=
    if d.workspaceFolder = "" then defaultWorkspaceFolder else d.workspaceFolder
  interpolate (getMapEnv d) workspaceFolder

/-- Service address triple (project.ServiceURL). -/
structure ServiceURL where
  host : String
  port : Nat
  workspaceFolder : String

/-- Container handle (project.ContainerContext): the generated name and the
argument vector of the docker run command the supervisor starts. -/
structure ContainerContext where
  name : String
  args : List String

/-- Embedding of project.NewContainerContext. The 16-character random name
produced by makeRandomString is passed in as an explicit input, which is the
only way the source's randomness enters the construction. -/
def NewContainerContext (tag : String) (d : DevContainer) (serviceURL : ServiceURL)
    (name : String) : Except String ContainerContext :=
  let portBinding := "0.0.0.0:" ++ toString serviceURL.port ++ ":8080"
  match getWorkspaceBinding d with
  | Except.error e => Except.error e
  | Except.ok workspaceBinding =>
    Except.ok
      { name := name,
        args := ["run", "--rm", "-p", portBinding, "--name", name]
          ++ ["--mount", workspaceBinding]
          ++ ["-w", serviceURL.workspaceFolder]
          ++ d.runArgs
          ++ d.forwardPorts.flatMap (fun v => ["-p", v])
          ++ (if d.remoteUser = "" then [] else ["-u", d.remoteUser])
          ++ [tag] }

/-- Run argument list in the order claim C8 words it (the ephemeral-name
flags first, then the port binding, then the remaining items); refinement
definition following the specification sentence. -/
def specRunArgsC8 (tag : String) (d : DevContainer) (serviceURL : ServiceURL)
    (name : String) (workspaceBinding : String) : List String :=
  ["run", "--rm", "--name", name,
   "-p", "0.0.0.0:" ++ toString serviceURL.port ++ ":8080"]
    ++ ["--mount", workspaceBinding]
    ++ ["-w", serviceURL.workspaceFolder]
    ++ d.runArgs
    ++ d.forwardPorts.flatMap (fun v => ["-p", v])
    ++ (if d.remoteUser = "" then [] else ["-u", d.remoteUser])
    ++ [tag]

/-- Events observable by the supervisor while it is blocked: one of the
three subscribed POSIX signals, or the supervised container process
terminating on its own. -/
inductive SupervisorEvent where
  | sigHUP
  | sigINT
  | sigTERM
  | childExit
deriving DecidableEq

/-- The three signals registered by ContainerContext.waitForSignal via
signal.Notify; they are treated identically. -/
def isTermSignal : SupervisorEvent → Bool
  | SupervisorEvent.sigHUP => true
  | SupervisorEvent.sigINT => true
  | SupervisorEvent.sigTERM => true
  | SupervisorEvent.childExit => false

/-- Embedding of ContainerContext.waitForSignal over an event trace: the
channel receive completes at the first subscribed signal in the trace and at
nothing else; none means the wait never completes within the trace. -/
def waitForSignalIdx : List SupervisorEvent → Option Nat
  | [] => none
  | e :: es => if isTermSignal e then some 0 else (waitForSignalIdx es).map (fun i => i + 1)

/-- Container engine behaviour for one supervised run: the error of the
asynchronous start, and the error of the docker kill teardown command. -/
structure DockerEngine where
  startErr : Option String
  killErr : Option String

/-- Argument vector of the teardown command issued by
ContainerContext.stop. -/
def ContainerContext.stopCommand (c : ContainerContext) : List String :=
  ["docker", "kill", c.name]

/-- Embedding of ContainerContext.Run on the path where the signal wait has
completed: a failed start returns the start error and issues no engine
command; otherwise exactly one kill command is issued and Run returns the
result of that command (the source returns c.stop() directly). The first
component lists the engine commands issued by Run. -/
def ContainerContext.runSupervised (c : ContainerContext) (engine : DockerEngine) :
    List (List String) × Option String :=
  match engine.startErr with
  | some e => ([], some e)
  | none => ([c.stopCommand], engine.killErr)

/-- Concrete input data used by the witness and counterexample theorems. -/
def wBaseDockerfile : String := "FROM golang:1.12.5"

/-- File system holding one base Dockerfile, mirroring the Go unit test. -/
def wFs : FileSystem := fun p => if p = "/tmp/Dockerfile" then some wBaseDockerfile else none

/-- Descriptor of the Go unit test: name "test", absolute dockerfile path,
zero values elsewhere. -/
def wDTest : DevContainer :=
  { emptyDevContainer with
    name := "test",
    build := { dockerfile := "/tmp/Dockerfile", context := ".", args := [] } }

/-- Settings store with no entries (every fetch fails), as the test's empty
MemoryRepository. -/
def wRepoNone : Repository := fun _ => none

/-- Expected synthesized Dockerfile of the Go unit test, byte for byte. -/
def wExpectedTestOutput : String :=
  "FROM golang:1.12.5\nRUN curl -fsSL https://code-server.dev/install.sh | sh\nRUN mkdir -p /opt/code-server/.vscode/User\nRUN echo 'e30K' | base64 -d > /opt/code-server/.vscode/User/settings.json\n\nRUN mkdir -p /opt/code-server\nRUN echo 'IyEvYmluL2Jhc2gKc2V0IC1lCnNldCAteAoKY29kZS1zZXJ2ZXIgLS11c2VyLWRhdGEtZGlyIC9vcHQvY29kZS1zZXJ2ZXIvLnZzY29kZSAtLWNvbmZpZyAvb3B0L2NvZGUtc2VydmVyL2NvbmZpZy55bWwgLS1iaW5kLWFkZHIgMC4wLjAuMDo4MDgw' | base64 -d > /opt/code-server/entrypoint.sh\nRUN chmod +x /opt/code-server/entrypoint.sh\n\nRUN echo \"auth: none\" > /opt/code-server/config.yml\nRUN chmod -R o+wr /opt/code-server/\nENTRYPOINT [\"/opt/code-server/entrypoint.sh\"]"

/-- Descriptor with one declared setting, used to exercise the merge. -/
def wDSettings : DevContainer :=
  { emptyDevContainer with
    build := { dockerfile := "/tmp/Dockerfile", context := ".", args := [] },
    settings := some [("a", Json.num 1)] }

/-- Remote settings document colliding on key a and adding key b. -/
def wRemoteSettingsDoc : String := "\x7b\"a\": 2, \"b\": 3\x7d"

/-- Settings store serving the remote settings document. -/
def wRepoSettings : Repository :=
  fun k => if k = "settings.json" then some wRemoteSettingsDoc else none

/-- Descriptor whose declared setting has an empty (false) value. -/
def wDEmptyVal : DevContainer :=
  { emptyDevContainer with
    build := { dockerfile := "/tmp/Dockerfile", context := ".", args := [] },
    settings := some [("a", Json.bool false)] }

/-- Remote settings document colliding on key a with a non-empty value. -/
def wRemoteOverrideDoc : String := "\x7b\"a\": true\x7d"

/-- Settings store serving the colliding remote document. -/
def wRepoOverride : Repository :=
  fun k => if k = "settings.json" then some wRemoteOverrideDoc else none

/-- Descriptor with one non-empty and one empty declared setting. -/
def wDMix : DevContainer :=
  { emptyDevContainer with
    build := { dockerfile := "/tmp/Dockerfile", context := ".", args := [] },
    settings := some [("keep", Json.num 1), ("ow", Json.bool false)] }

/-- Remote settings document exercising a collision with a non-empty
destination value, a collision with an empty destination value, a null
entry and a fresh key. -/
def wRemoteMixDoc : String :=
  "\x7b\"keep\": 2, \"ow\": true, \"skip\": null, \"add\": 3\x7d"

/-- Settings store serving the mixed remote document. -/
def wRepoMix : Repository :=
  fun k => if k = "settings.json" then some wRemoteMixDoc else none

/-- Settings store serving both keybindings candidates with distinct valid
content. -/
def wRepoKeybindings : Repository :=
  fun k =>
    if k = "keybindings.json" then some "[\x7b\"key\": \"g\"\x7d]"
    else if k = "keybindingsMac.json" then some "[\x7b\"key\": \"m\"\x7d]"
    else none

/-- Settings store where only the Mac-specific keybindings name exists. -/
def wRepoKeybindingsMacOnly : Repository :=
  fun k => if k = "keybindingsMac.json" then some "[\x7b\"key\": \"m\"\x7d]" else none

/-- Descriptor exercising every run argument source. -/
def wDRun : DevContainer :=
  { emptyDevContainer with
    dirPath := "/h/p/.devcontainer",
    runArgs := ["--cap-add", "SYS_PTRACE"],
    forwardPorts := ["5432:5432"],
    remoteUser := "vscode" }

/-- Service address used with wDRun. -/
def wUrl : ServiceURL := { host := "host", port := 50000, workspaceFolder := "/workspace/p" }

/-- Generated container name used in the supervision examples (the source
draws a random 16-letter name; any fixed one exercises the same paths). -/
def wName : String := "abcdefghijklmnop"

/-- Container context used by the supervision counterexample. -/
def wCtx : ContainerContext := { name := wName, args := [] }

/-- Engine behaviour where the start succeeds and the teardown kill
fails. -/
def wEngineKillFails : DockerEngine := { startErr := none, killErr := some "kill failed" }

/-- Descriptor whose workspaceFolder override names an undefined
variable. -/
def wDUndefinedVar : DevContainer :=
  { emptyDevContainer with
    dirPath := "/h/p/.devcontainer",
    workspaceFolder := "${undefinedVariableName}" }

/-- Descriptor with extensions and a post-create command, used by the C1
witness. -/
def wDFull : DevContainer :=
  { emptyDevContainer with
    name := "My Proj",
    build := { dockerfile := "Dockerfile", context := ".", args := [] },
    dirPath := "/h/p/.devcontainer",
    postCreateCommand := "go get ./...",
    extensions := ["golang.Go", "ms-python.python"] }

/-- File system for wDFull (descriptor-relative dockerfile path). -/
def wFsFull : FileSystem :=
  fun p => if p = "/h/p/.devcontainer/Dockerfile" then some wBaseDockerfile else none

theorem b64Ord_b64Chr {n : Nat} (h : n < 64) : b64Ord (b64Chr n) = n := by
  have hall : ∀ m : Fin 64, b64Ord (b64Chr m.val) = m.val := by decide
  exact hall ⟨n, h⟩

theorem b64Chr_ne_pad {n : Nat} (h : n < 64) : b64Chr n ≠ '=' := by
  have hall : ∀ m : Fin 64, b64Chr m.val ≠ '=' := by decide
  exact hall ⟨n, h⟩

theorem b64_byte0 (b0 b1 : Nat) (_h0 : b0 < 256) (h1 : b1 < 256) :
    b0 / 4 * 4 + (b0 % 4 * 16 + b1 / 16) / 16 = b0 := by
  have e : (b0 % 4 * 16 + b1 / 16) / 16 = b0 % 4 := by
    rw [Nat.mul_comm (b0 % 4) 16, Nat.mul_add_div (by norm_num),
      Nat.div_div_eq_div_mul, Nat.div_eq_of_lt (by omega)]
    omega
  rw [e]
  omega

theorem b64_byte1 (b0 b1 b2 : Nat) (h1 : b1 < 256) (h2 : b2 < 256) :
    (b0 % 4 * 16 + b1 / 16) % 16 * 16 + (b1 % 16 * 4 + b2 / 64) / 4 = b1 := by
  have e1 : (b0 % 4 * 16 + b1 / 16) % 16 = b1 / 16 := by
    rw [Nat.mul_comm (b0 % 4) 16, Nat.mul_add_mod, Nat.mod_eq_of_lt (by omega)]
  have e2 : (b1 % 16 * 4 + b2 / 64) / 4 = b1 % 16 := by
    rw [Nat.mul_comm (b1 % 16) 4, Nat.mul_add_div (by norm_num),
      Nat.div_div_eq_div_mul, Nat.div_eq_of_lt (by omega)]
    omega
  rw [e1, e2]
  omega

theorem b64_byte2 (b1 b2 : Nat) (h2 : b2 < 256) :
    (b1 % 16 * 4 + b2 / 64) % 4 * 64 + b2 % 64 = b2 := by
  have e : (b1 % 16 * 4 + b2 / 64) % 4 = b2 / 64 := by
    rw [Nat.mul_comm (b1 % 16) 4, Nat.mul_add_mod, Nat.mod_eq_of_lt (by omega)]
  rw [e]
  omega

theorem b64_roundtrip : ∀ bs : List Nat, (∀ b ∈ bs, b < 256) → b64Decode (b64Encode bs) = bs
  | [], _ => by rfl
  | [b0], h => by
    have h0 : b0 < 256 := h b0 (by simp)
    have e0 : b0 / 4 < 64 := by omega
    have e1 : b0 % 4 * 16 < 64 := by omega
    simp only [b64Encode, b64Decode, b64Ord_b64Chr e0, b64Ord_b64Chr e1, if_pos rfl]
    have eb : b0 / 4 * 4 + b0 % 4 * 16 / 16 = b0 := by
      rw [Nat.mul_div_cancel _ (by norm_num : 0 < 16)]
      omega
    rw [eb]
    simp
  | [b0, b1], h => by
    have h0 : b0 < 256 := h b0 (by simp)
    have h1 : b1 < 256 := h b1 (by simp)
    have e0 : b0 / 4 < 64 := by omega
    have e1 : b0 % 4 * 16 + b1 / 16 < 64 := by omega
    have e2 : b1 % 16 * 4 < 64 := by omega
    simp only [b64Encode, b64Decode, if_neg (b64Chr_ne_pad e2), if_pos rfl,
      b64Ord_b64Chr e0, b64Ord_b64Chr e1, b64Ord_b64Chr e2]
    have eb0 : b0 / 4 * 4 + (b0 % 4 * 16 + b1 / 16) / 16 = b0 := b64_byte0 b0 b1 h0 h1
    have eb1 : (b0 % 4 * 16 + b1 / 16) % 16 * 16 + b1 % 16 * 4 / 4 = b1 := by
      have e3 : (b0 % 4 * 16 + b1 / 16) % 16 = b1 / 16 := by
        rw [Nat.mul_comm (b0 % 4) 16, Nat.mul_add_mod, Nat.mod_eq_of_lt (by omega)]
      rw [e3, Nat.mul_div_cancel _ (by norm_num : 0 < 4)]
      omega
    rw [eb0, eb1]
    simp
  | b0 :: b1 :: b2 :: rest, h => by
    have h0 : b0 < 256 := h b0 (by simp)
    have h1 : b1 < 256 := h b1 (by simp)
    have h2 : b2 < 256 := h b2 (by simp)
    have e0 : b0 / 4 < 64 := by omega
    have e1 : b0 % 4 * 16 + b1 / 16 < 64 := by omega
    have e2 : b1 % 16 * 4 + b2 / 64 < 64 := by omega
    have e3 : b2 % 64 < 64 := by omega
    have ih : b64Decode (b64Encode rest) = rest :=
      b64_roundtrip rest (fun b hb => h b (by simp [hb]))
    simp only [b64Encode, b64Decode, if_neg (b64Chr_ne_pad e2), if_neg (b64Chr_ne_pad e3),
      b64Ord_b64Chr e0, b64Ord_b64Chr e1, b64Ord_b64Chr e2, b64Ord_b64Chr e3, ih]
    rw [b64_byte0 b0 b1 h0 h1, b64_byte1 b0 b1 b2 h1 h2, b64_byte2 b1 b2 h2]

theorem strBytes_lt (s : String) : ∀ b ∈ strBytes s, b < 256 := by
  intro b hb
  simp only [strBytes, List.mem_map] at hb
  obtain ⟨c, _, rfl⟩ := hb
  exact Nat.mod_lt _ (by omega)

theorem b64OfString_decode (s : String) : b64Decode (b64OfString s).data = strBytes s := by
  show b64Decode (b64Encode (strBytes s)) = strBytes s
  exact b64_roundtrip _ (strBytes_lt s)

/-- Template segment: a literal piece or one brace-delimited variable
expansion; used to state interpolation results over arbitrary templates. -/
inductive TmplSeg where
  | lit (s : String)
  | var (name : String)

/-- Concrete template text of one segment. -/
def segText : TmplSeg → String
  | TmplSeg.lit s => s
  | TmplSeg.var n => "$\x7b" ++ n ++ "\x7d"

/-- Concrete template text of a segment list. -/
def segsText : List TmplSeg → String
  | [] => ""
  | s :: r => segText s ++ segsText r

/-- Expansion value of one segment under an environment. -/
def segValue (env : List (String × String)) : TmplSeg → String
  | TmplSeg.lit s => s
  | TmplSeg.var n => envGet env n

/-- Expansion value of a segment list. -/
def segsValue (env : List (String × String)) : List TmplSeg → String
  | [] => ""
  | s :: r => segValue env s ++ segsValue env r

/-- Parsed items of one segment. -/
def segItems : TmplSeg → List TmplItem
  | TmplSeg.lit s => s.data.map TmplItem.text
  | TmplSeg.var n => [TmplItem.var n]

/-- Parsed items of a segment list. -/
def segsItems : List TmplSeg → List TmplItem
  | [] => []
  | s :: r => segItems s ++ segsItems r

/-- Well-formedness of a segment: literals contain no dollar and variable
names are non-empty identifier strings. -/
def segOk : TmplSeg → Bool
  | TmplSeg.lit s => s.data.all (fun c => c != '$')
  | TmplSeg.var n => !n.data.isEmpty && n.data.all identChar

/-- Descriptor with a workspaceFolder override mixing literal text and both
defined variables, used by the interpolation witness. -/
def wDWsOverride : DevContainer :=
  { emptyDevContainer with
    dirPath := "/h/p/.devcontainer",
    workspaceFolder := "/ws/${localWorkspaceFolder}/x" }


theorem string_mk_data (l : List Char) : (String.mk l).data = l := rfl

theorem string_empty_append (s : String) : "" ++ s = s := by
  apply String.ext
  simp [String.data_append]

theorem goJoin_pair (sep a b : String) : goJoin sep [a, b] = a ++ sep ++ b := rfl

theorem goJoin_cons_cons (sep : String) (x y : String) (xs : List String) :
    goJoin sep (x :: y :: xs) = x ++ sep ++ goJoin sep (y :: xs) := rfl

theorem goJoin_ends_with (sep : String) :
    ∀ (l : List String) (x : String), ∃ front : String, goJoin sep (l ++ [x]) = front ++ x
  | [], x => ⟨"", by
      show goJoin sep [x] = "" ++ x
      rw [string_empty_append]
      rfl⟩
  | [y], x => ⟨y ++ sep, rfl⟩
  | y :: z :: l, x => by
    obtain ⟨front, hfront⟩ := goJoin_ends_with sep (z :: l) x
    refine ⟨y ++ sep ++ front, ?_⟩
    show goJoin sep (y :: ((z :: l) ++ [x])) = y ++ sep ++ front ++ x
    have hstep : goJoin sep (y :: ((z :: l) ++ [x])) =
        y ++ sep ++ goJoin sep ((z :: l) ++ [x]) := rfl
    rw [hstep, hfront, ← String.append_assoc]

theorem parseTmpl_nil : parseTmpl [] = some [] := by
  unfold parseTmpl
  rfl

theorem parseTmpl_cons_text (c : Char) (cs : List Char) (hc : c ≠ '$') :
    parseTmpl (c :: cs) = (parseTmpl cs).map (fun l => TmplItem.text c :: l) := by
  conv_lhs => rw [parseTmpl.eq_def]
  simp [hc]

theorem takeWhile_append_stop (nm : List Char) (c : Char) (rest : List Char)
    (hall : ∀ x ∈ nm, identChar x = true) (hc : identChar c = false) :
    (nm ++ c :: rest).takeWhile identChar = nm := by
  induction nm with
  | nil => simp [List.takeWhile_cons, hc]
  | cons x xs ih =>
    simp only [List.cons_append, List.takeWhile_cons, hall x (by simp), if_pos]
    rw [ih (fun y hy => hall y (by simp [hy]))]

theorem drop_append_cons_succ (nm : List Char) (c : Char) (rest : List Char) :
    (nm ++ c :: rest).drop (nm.length + 1) = rest := by
  have h1 : nm ++ c :: rest = (nm ++ [c]) ++ rest := by simp
  have h2 : nm.length + 1 = (nm ++ [c]).length := by simp
  rw [h1, h2, List.drop_left]

theorem parseTmpl_var (nm : List Char) (rest : List Char) (hne : nm ≠ [])
    (hall : ∀ x ∈ nm, identChar x = true) :
    parseTmpl ('$' :: '\x7b' :: (nm ++ '\x7d' :: rest)) =
      (parseTmpl rest).map (fun l => TmplItem.var ⟨nm⟩ :: l) := by
  have ht : (nm ++ '\x7d' :: rest).takeWhile identChar = nm :=
    takeWhile_append_stop nm _ rest hall (by decide)
  have hd : (nm ++ '\x7d' :: rest).drop nm.length = '\x7d' :: rest := List.drop_left nm _
  have hd2 : (nm ++ '\x7d' :: rest).drop (nm.length + 1) = rest :=
    drop_append_cons_succ nm _ rest
  have hemp : nm.isEmpty = false := by
    cases nm
    · exact absurd rfl hne
    · rfl
  conv_lhs => rw [parseTmpl.eq_def]
  simp only [ht, hd, hd2, hemp]
  rfl

theorem parseTmpl_text_append (cs rest : List Char) (h : ∀ c ∈ cs, c ≠ '$') :
    parseTmpl (cs ++ rest) = (parseTmpl rest).map (fun l => cs.map TmplItem.text ++ l) := by
  induction cs with
  | nil =>
    cases hp : parseTmpl rest <;> simp [hp]
  | cons x xs ih =>
    rw [List.cons_append, parseTmpl_cons_text x _ (h x (by simp)),
      ih (fun c hc => h c (by simp [hc]))]
    cases hp : parseTmpl rest <;> simp [hp]

theorem parseTmpl_segs (segs : List TmplSeg) (h : ∀ s ∈ segs, segOk s = true) :
    parseTmpl (segsText segs).data = some (segsItems segs) := by
  induction segs with
  | nil => exact parseTmpl_nil
  | cons s r ih =>
    have hr := ih (fun x hx => h x (by simp [hx]))
    have hs := h s (by simp)
    cases s with
    | lit str =>
      have hstr : ∀ c ∈ str.data, c ≠ '$' := by
        intro c hc
        have := List.all_eq_true.mp hs c hc
        simpa using this
      show parseTmpl ((str ++ segsText r).data) = _
      rw [String.data_append, parseTmpl_text_append _ _ hstr, hr]
      rfl
    | var n =>
      have hparts : (!n.data.isEmpty) = true ∧ n.data.all identChar = true := by
        simpa [segOk, Bool.and_eq_true] using hs
      have hne : n.data ≠ [] := by
        intro hd
        have h1 := hparts.1
        rw [List.isEmpty_iff.mpr hd] at h1
        exact absurd h1 (by decide)
      have hallid : ∀ x ∈ n.data, identChar x = true :=
        List.all_eq_true.mp hparts.2
      show parseTmpl (("$\x7b" ++ n ++ "\x7d" ++ segsText r).data) = _
      have hshape : ("$\x7b" ++ n ++ "\x7d" ++ segsText r).data =
          '$' :: '\x7b' :: (n.data ++ '\x7d' :: (segsText r).data) := by
        simp [String.data_append]
      rw [hshape, parseTmpl_var n.data _ hne hallid, hr]
      rfl

theorem flatten_map_singleton (cs : List Char) : (cs.map (fun c => [c])).flatten = cs := by
  induction cs with
  | nil => rfl
  | cons x xs ih => simp [ih]

theorem renderTmpl_append (env : List (String × String)) (a b : List TmplItem) :
    renderTmpl env (a ++ b) = renderTmpl env a ++ renderTmpl env b := by
  apply String.ext
  simp [renderTmpl, String.data_append, string_mk_data]

theorem renderTmpl_segs (env : List (String × String)) (segs : List TmplSeg) :
    renderTmpl env (segsItems segs) = segsValue env segs := by
  induction segs with
  | nil => rfl
  | cons s r ih =>
    show renderTmpl env (segItems s ++ segsItems r) = segValue env s ++ segsValue env r
    rw [renderTmpl_append, ih]
    congr 1
    cases s with
    | lit str =>
      show renderTmpl env (str.data.map TmplItem.text) = str
      apply String.ext
      simp only [renderTmpl, string_mk_data, List.map_map]
      have hcomp : (renderItem env ∘ TmplItem.text) = fun c => [c] := rfl
      rw [hcomp, flatten_map_singleton]
    | var n =>
      show renderTmpl env [TmplItem.var n] = envGet env n
      apply String.ext
      simp [renderTmpl, renderItem, string_mk_data]

theorem interpolate_segs (env : List (String × String)) (segs : List TmplSeg)
    (h : ∀ s ∈ segs, segOk s = true) :
    interpolate env (segsText segs) = Except.ok (segsValue env segs) := by
  rw [interpolate, parseTmpl_segs segs h]
  show Except.ok (renderTmpl env (segsItems segs)) = _
  rw [renderTmpl_segs]

set_option maxRecDepth 8000 in
/-- Validation of the embedding against the repository's own unit test
TestDockerfile: the synthesized Dockerfile for the test descriptor equals
the expected text from dockerfile_test.go byte for byte. -/
theorem wrapDockerFile_matches_go_unit_test :
    WrapDockerFile wFs wDTest wRepoNone = some wExpectedTestOutput := by decide

/-- Claim C10: the image-tag derivation is a deterministic pure function of
the descriptor name; applying it twice yields identical strings, the result
is the lowercased name with spaces replaced by underscores followed by the
fixed suffix, it contains no spaces, and it ends in the suffix. -/
theorem image_tag_properties (d : DevContainer) :
    getImageTag d = getImageTag d ∧
    getImageTag d = goReplaceSpace (goToLower d.name) ++ "_code_coder_server" ∧
    (∀ c ∈ (getImageTag d).data, c ≠ ' ') ∧
    ∃ p, getImageTag d = p ++ "_code_coder_server" := by
  refine ⟨rfl, rfl, ?_, ⟨goReplaceSpace (goToLower d.name), rfl⟩⟩
  intro c hc
  rw [getImageTag, String.data_append] at hc
  rcases List.mem_append.mp hc with hl | hr
  · simp only [goReplaceSpace, goToLower, string_mk_data, List.mem_map] at hl
    obtain ⟨a, _, rfl⟩ := hl
    by_cases ha : a = ' '
    · simp [ha]
    · simp only [if_neg ha]
      exact ha
  · have hall : ∀ x ∈ "_code_coder_server".data, x ≠ ' ' := by decide
    exact hall c hr

/-- Claim C2 (counterexample): a trace in which the supervised container
process exits on its own and no signal arrives leaves the signal wait
incomplete, so run stays blocked, contradicting the claim that run unblocks
on the process's own termination. -/
theorem run_blocked_after_child_exit :
    SupervisorEvent.childExit ∈ [SupervisorEvent.childExit] ∧
    waitForSignalIdx [SupervisorEvent.childExit] = none := by
  decide

/-- Claim C2 (amended): the blocking wait of run has no timeout and
completes exactly when a HUP, INT or TERM signal occurs in the event trace;
the supervised container process exiting on its own never completes it. -/
theorem run_unblocks_only_on_signals (events : List SupervisorEvent) :
    ((waitForSignalIdx events).isSome = true ↔ ∃ e ∈ events, isTermSignal e = true) ∧
    (waitForSignalIdx events = none ↔ ∀ e ∈ events, isTermSignal e = false) := by
  induction events with
  | nil => simp [waitForSignalIdx]
  | cons x xs ih =>
    by_cases hx : isTermSignal x = true
    · simp [waitForSignalIdx, hx]
    · have hx' : isTermSignal x = false := by
        cases hhx : isTermSignal x
        · rfl
        · exact absurd hhx hx
      simp [waitForSignalIdx, hx', ih.1, ih.2]

theorem run_unblocks_only_on_signals_witness :
    (waitForSignalIdx [SupervisorEvent.childExit, SupervisorEvent.sigINT]).isSome = true ∧
    waitForSignalIdx [SupervisorEvent.sigTERM, SupervisorEvent.childExit] = some 0 :=
  ⟨(run_unblocks_only_on_signals [SupervisorEvent.childExit, SupervisorEvent.sigINT]).1.mpr
      ⟨SupervisorEvent.sigINT, by decide, by decide⟩,
   by decide⟩

/-- Claim C3 (counterexample): when the teardown kill command fails, Run
returns that failure (the source returns c.stop() directly), so the kill
error is propagated to run's caller, contradicting the claim that run's
result does not reflect kill failure. -/
theorem run_returns_kill_error_concrete :
    (wCtx.runSupervised wEngineKillFails).2 ≠ none ∧
    (wCtx.runSupervised wEngineKillFails).2 = some "kill failed" ∧
    (wCtx.runSupervised wEngineKillFails).1 = [["docker", "kill", wName]] := by
  refine ⟨?_, rfl, rfl⟩
  decide

/-- Claim C3 (amended): once started, on signal receipt run issues exactly
one kill command whose argument vector is docker kill with exactly the
generated container name, then returns; the result of run is the kill
command's own result, so a kill failure is propagated to run's caller
(which the top-level CLI then discards). -/
theorem run_kill_exactly_once_and_propagates (c : ContainerContext) (engine : DockerEngine)
    (hstart : engine.startErr = none) :
    c.runSupervised engine = ([["docker", "kill", c.name]], engine.killErr) := by
  simp [ContainerContext.runSupervised, hstart, ContainerContext.stopCommand]

theorem run_kill_exactly_once_and_propagates_witness :
    wCtx.runSupervised wEngineKillFails = ([["docker", "kill", wName]], some "kill failed") :=
  run_kill_exactly_once_and_propagates wCtx wEngineKillFails rfl

/-- Claim C1: whenever the base Dockerfile can be read, WrapDockerFile
returns the newline join, in this exact order, of the verbatim base
contents, the fixed installer line, the settings block, the keybindings
block, the entrypoint block (base64-embedded script plus a chmod line), one
install line per extension in declaration order, the fixed auth line, the
fixed permission line and the fixed ENTRYPOINT line; the output begins with
the base contents and ends with the ENTRYPOINT line. -/
theorem wrapDockerFile_exact_structure (fs : FileSystem) (d : DevContainer) (repo : Repository)
    (base : String) (hread : fs (joinPath d.dirPath d.build.dockerfile) = some base) :
    ∃ out, WrapDockerFile fs d repo = some out ∧
      out = goJoin "\n"
        [base,
         "RUN curl -fsSL https://code-server.dev/install.sh | sh",
         (createSettingJson d repo).1,
         createKeybindingsJson d repo,
         goJoin "\n"
           ["RUN mkdir -p /opt/code-server",
            "RUN echo '" ++ b64OfString (goJoin "\n"
              ["#!/bin/bash", "set -e", "set -x", d.postCreateCommand,
               "code-server --user-data-dir /opt/code-server/.vscode --config /opt/code-server/config.yml --bind-addr 0.0.0.0:8080"])
              ++ "' | base64 -d > /opt/code-server/entrypoint.sh",
            "RUN chmod +x /opt/code-server/entrypoint.sh"],
         goJoin "\n" (d.extensions.map (fun v =>
           "RUN code-server --install-extension " ++ v ++ " --extensions-dir /opt/code-server/.vscode/extensions/")),
         "RUN echo \"auth: none\" > /opt/code-server/config.yml",
         "RUN chmod -R o+wr /opt/code-server/",
         "ENTRYPOINT [\"/opt/code-server/entrypoint.sh\"]"] ∧
      (∃ rest, out = base ++ rest) ∧
      (∃ front, out = front ++ "ENTRYPOINT [\"/opt/code-server/entrypoint.sh\"]") := by
  refine ⟨goJoin "\n"
      [base, CodeServerInstall, (createSettingJson d repo).1,
       createKeybindingsJson d repo, createEntryScript d, installExtensions d,
       createConfigYaml, modifyCodeServerDirPermissions, Entrypoint], ?_, rfl, ?_, ?_⟩
  · simp only [WrapDockerFile, hread]
  · refine ⟨"\n" ++ goJoin "\n"
      [CodeServerInstall, (createSettingJson d repo).1,
       createKeybindingsJson d repo, createEntryScript d, installExtensions d,
       createConfigYaml, modifyCodeServerDirPermissions, Entrypoint], ?_⟩
    rw [goJoin_cons_cons, String.append_assoc]
  · have hsplit :
        ([base, CodeServerInstall, (createSettingJson d repo).1,
          createKeybindingsJson d repo, createEntryScript d, installExtensions d,
          createConfigYaml, modifyCodeServerDirPermissions, Entrypoint] : List String) =
        [base, CodeServerInstall, (createSettingJson d repo).1,
          createKeybindingsJson d repo, createEntryScript d, installExtensions d,
          createConfigYaml, modifyCodeServerDirPermissions] ++ [Entrypoint] := rfl
    rw [hsplit]
    exact goJoin_ends_with "\n" _ Entrypoint

theorem wrapDockerFile_exact_structure_witness :
    wFsFull (joinPath wDFull.dirPath wDFull.build.dockerfile) = some wBaseDockerfile ∧
    ∃ out, WrapDockerFile wFsFull wDFull wRepoNone = some out ∧
      (∃ rest, out = wBaseDockerfile ++ rest) ∧
      (∃ front, out = front ++ "ENTRYPOINT [\"/opt/code-server/entrypoint.sh\"]") := by
  refine ⟨by decide, ?_⟩
  obtain ⟨out, h1, _, h3, h4⟩ :=
    wrapDockerFile_exact_structure wFsFull wDFull wRepoNone wBaseDockerfile (by decide)
  exact ⟨out, h1, h3, h4⟩

/-- Claim C7: with an empty (or absent) settings object and a provider
whose every fetch fails, synthesis still succeeds and the settings block's
base64 payload is the serialization of the empty object, which decodes back
to exactly those bytes. -/
theorem settings_block_empty_on_provider_failure (d : DevContainer) (fs : FileSystem)
    (repo : Repository) (base : String)
    (hrepo : ∀ k, repo k = none)
    (hsettings : d.settings = none ∨ d.settings = some [])
    (hread : fs (joinPath d.dirPath d.build.dockerfile) = some base) :
    (∃ out, WrapDockerFile fs d repo = some out) ∧
    (createSettingJson d repo).1 =
      goJoin "\n"
        ["RUN mkdir -p /opt/code-server/.vscode/User",
         "RUN echo '" ++ b64OfString (dumpAsJson (Json.obj [])) ++ "' | base64 -d > /opt/code-server/.vscode/User/settings.json"] ∧
    dumpAsJson (Json.obj []) = "\x7b\x7d\n" ∧
    b64Decode (b64OfString (dumpAsJson (Json.obj []))).data =
      strBytes (dumpAsJson (Json.obj [])) := by
  have hf : fetchRemoteSettings repo = none := by
    simp [fetchRemoteSettings, hrepo]
  refine ⟨⟨goJoin "\n"
      [base, CodeServerInstall, (createSettingJson d repo).1, createKeybindingsJson d repo,
       createEntryScript d, installExtensions d, createConfigYaml,
       modifyCodeServerDirPermissions, Entrypoint],
      by simp only [WrapDockerFile, hread]⟩, ?_, rfl, b64OfString_decode _⟩
  rcases hsettings with h | h <;>
    simp only [createSettingJson, h, hf] <;> rfl

theorem settings_block_empty_on_provider_failure_witness :
    (∃ out, WrapDockerFile wFs wDTest wRepoNone = some out) ∧
    (createSettingJson wDTest wRepoNone).1 =
      goJoin "\n"
        ["RUN mkdir -p /opt/code-server/.vscode/User",
         "RUN echo '" ++ b64OfString (dumpAsJson (Json.obj [])) ++ "' | base64 -d > /opt/code-server/.vscode/User/settings.json"] ∧
    dumpAsJson (Json.obj []) = "\x7b\x7d\n" ∧
    b64Decode (b64OfString (dumpAsJson (Json.obj []))).data =
      strBytes (dumpAsJson (Json.obj [])) :=
  settings_block_empty_on_provider_failure wDTest wFs wRepoNone wBaseDockerfile
    (fun _ => rfl) (Or.inl rfl) (by decide)

/-- Claim C4 (counterexample): with descriptor settings declaring a false
value for key a and a remote object giving a true for the same key, the
program's settings payload serializes the remote value (mergo overwrites
empty destination values such as false), not the descriptor value, so the
claimed descriptor-wins-on-collision merge is false of the program. -/
theorem settings_merge_remote_overwrites_empty :
    json5ParseObj wRemoteOverrideDoc = some [("a", Json.bool true)] ∧
    (createSettingJson wDEmptyVal wRepoOverride).1 =
      goJoin "\n"
        ["RUN mkdir -p /opt/code-server/.vscode/User",
         "RUN echo '" ++ b64OfString (dumpAsJson (Json.obj [("a", Json.bool true)])) ++ "' | base64 -d > /opt/code-server/.vscode/User/settings.json"] ∧
    (createSettingJson wDEmptyVal wRepoOverride).1 ≠
      goJoin "\n"
        ["RUN mkdir -p /opt/code-server/.vscode/User",
         "RUN echo '" ++ b64OfString (dumpAsJson (Json.obj [("a", Json.bool false)])) ++ "' | base64 -d > /opt/code-server/.vscode/User/settings.json"] := by
  refine ⟨rfl, rfl, ?_⟩
  decide

/-- Claim C4 (amended): when the provider serves content under the fixed
key settings.json and that content parses to an object, the settings
block's base64 payload is the serialization of mergo's merge of the
descriptor settings (destination) with the remote object (source), in
which a descriptor entry survives a key collision only when its value is
non-empty, an empty descriptor value (null, false, 0, empty string, empty
array or object) is overwritten by the remote value, colliding objects are
deep-merged, null-valued remote entries are ignored and remote-only keys
are added; base64-decoding the payload yields exactly that serialization's
bytes. -/
theorem settings_payload_decodes_to_merge (d : DevContainer) (repo : Repository)
    (content : String) (remote : List (String × Json))
    (hget : repo "settings.json" = some content)
    (hparse : json5ParseObj content = some remote) :
    ∃ payload : String,
      (createSettingJson d repo).1 =
        goJoin "\n"
          ["RUN mkdir -p /opt/code-server/.vscode/User",
           "RUN echo '" ++ payload ++ "' | base64 -d > /opt/code-server/.vscode/User/settings.json"] ∧
      payload =
        b64OfString (dumpAsJson (sortJsonDeep (Json.obj
          (mergoMerge (d.settings.getD []) remote)))) ∧
      b64Decode payload.data =
        strBytes (dumpAsJson (sortJsonDeep (Json.obj
          (mergoMerge (d.settings.getD []) remote)))) := by
  have hf : fetchRemoteSettings repo = some remote := by
    simp [fetchRemoteSettings, hget, hparse]
  refine ⟨_, ?_, rfl, b64OfString_decode _⟩
  simp only [createSettingJson, hf]

theorem settings_payload_decodes_to_merge_witness :
    mergoMerge [("keep", Json.num 1), ("ow", Json.bool false)]
        [("keep", Json.num 2), ("ow", Json.bool true), ("skip", Json.null),
         ("add", Json.num 3)] =
      [("keep", Json.num 1), ("ow", Json.bool true), ("add", Json.num 3)] ∧
    mergoMerge [("o", Json.obj [("x", Json.num 1)])]
        [("o", Json.obj [("x", Json.num 9), ("y", Json.num 2)])] =
      [("o", Json.obj [("x", Json.num 1), ("y", Json.num 2)])] ∧
    ∃ payload : String,
      (createSettingJson wDMix wRepoMix).1 =
        goJoin "\n"
          ["RUN mkdir -p /opt/code-server/.vscode/User",
           "RUN echo '" ++ payload ++ "' | base64 -d > /opt/code-server/.vscode/User/settings.json"] ∧
      payload =
        b64OfString (dumpAsJson (sortJsonDeep (Json.obj
          (mergoMerge (wDMix.settings.getD [])
            [("keep", Json.num 2), ("ow", Json.bool true), ("skip", Json.null),
             ("add", Json.num 3)])))) ∧
      b64Decode payload.data =
        strBytes (dumpAsJson (sortJsonDeep (Json.obj
          (mergoMerge (wDMix.settings.getD [])
            [("keep", Json.num 2), ("ow", Json.bool true), ("skip", Json.null),
             ("add", Json.num 3)])))) :=
  ⟨rfl, rfl,
   settings_payload_decodes_to_merge wDMix wRepoMix wRemoteMixDoc
     [("keep", Json.num 2), ("ow", Json.bool true), ("skip", Json.null),
      ("add", Json.num 3)] rfl rfl⟩

/-- Claim C6 (counterexample): synthesizing the settings block with a
provider returning remote settings inserts the remote-only keys into the
descriptor's settings map in place (Go maps are references and mergo writes
through the alias), so the descriptor's key set changes from a to a, b. -/
theorem descriptor_settings_mutated_by_merge :
    (createSettingJson wDSettings wRepoSettings).2.settings.map (fun l => l.map Prod.fst) =
      some ["a", "b"] ∧
    wDSettings.settings.map (fun l => l.map Prod.fst) = some ["a"] ∧
    (createSettingJson wDSettings wRepoSettings).2.settings.map (fun l => l.map Prod.fst) ≠
      wDSettings.settings.map (fun l => l.map Prod.fst) := by
  refine ⟨rfl, rfl, ?_⟩
  decide

/-- Claim C6 (amended): no pipeline operation mutates any descriptor field
other than the settings map; the settings map is left unchanged when it is
nil, when the remote fetch fails or when the remote content does not parse,
and when the descriptor declares a non-nil settings map and the remote
fetch-and-parse succeeds, mergo's merge of the remote object is applied to
that map in place (non-empty entries kept, empty-valued entries overwritten,
colliding objects deep-merged, null remote entries skipped, remote-only
keys added). -/
theorem createSettingJson_mutation_characterized (d : DevContainer) (repo : Repository) :
    ({ (createSettingJson d repo).2 with settings := d.settings } = d) ∧
    (d.settings = none → (createSettingJson d repo).2 = d) ∧
    (fetchRemoteSettings repo = none → (createSettingJson d repo).2 = d) ∧
    (∀ m r, d.settings = some m → fetchRemoteSettings repo = some r →
      (createSettingJson d repo).2.settings = some (mergoMerge m r)) := by
  refine ⟨?_, ?_, ?_, ?_⟩
  · obtain ⟨dp, nm, bd, ra, wm, wfo, st, ex, fp, pc, ru⟩ := d
    cases st <;> cases hf : fetchRemoteSettings repo <;>
      simp [createSettingJson, hf]
  · intro hs
    cases hf : fetchRemoteSettings repo <;> simp [createSettingJson, hs, hf]
  · intro hf
    cases hs : d.settings <;> simp [createSettingJson, hs, hf]
  · intro m r hs hf
    simp [createSettingJson, hs, hf]

theorem createSettingJson_mutation_characterized_witness :
    (createSettingJson wDSettings wRepoSettings).2.settings =
      some (mergoMerge [("a", Json.num 1)] [("a", Json.num 2), ("b", Json.num 3)]) :=
  (createSettingJson_mutation_characterized wDSettings wRepoSettings).2.2.2
    [("a", Json.num 1)] [("a", Json.num 2), ("b", Json.num 3)] rfl rfl

/-- Claim C5 (counterexample): with both candidate files present and valid,
the code uses the content of the generic name keybindings.json, while the
claimed order (platform-specific first) would use keybindingsMac.json; the
two results differ, so the claimed candidate order is wrong. -/
theorem keybindings_generic_tried_before_mac :
    (tryKeybindingsFile wRepoKeybindings "keybindings.json").isSome = true ∧
    (tryKeybindingsFile wRepoKeybindings "keybindingsMac.json").isSome = true ∧
    createKeybindingsJson emptyDevContainer wRepoKeybindings =
      (tryKeybindingsFile wRepoKeybindings "keybindings.json").getD "" ∧
    createKeybindingsJsonSpecOrder emptyDevContainer wRepoKeybindings =
      (tryKeybindingsFile wRepoKeybindings "keybindingsMac.json").getD "" ∧
    createKeybindingsJson emptyDevContainer wRepoKeybindings ≠
      createKeybindingsJsonSpecOrder emptyDevContainer wRepoKeybindings := by
  refine ⟨rfl, rfl, rfl, rfl, ?_⟩
  decide

/-- Claim C5 (amended): the keybindings step tries exactly two candidate
remote names in order, the generic keybindings.json first and the
Mac-specific keybindingsMac.json second, and uses the first attempt that
yields valid non-empty content; when both attempts fail (fetch error, empty
content or invalid content), the block is the empty string, so no
keybindings file write appears in the synthesized Dockerfile. -/
theorem keybindings_candidate_order (d : DevContainer) (repo : Repository) :
    keybindingsCandidateFiles = ["keybindings.json", "keybindingsMac.json"] ∧
    (∀ b, tryKeybindingsFile repo "keybindings.json" = some b →
      createKeybindingsJson d repo = b) ∧
    (tryKeybindingsFile repo "keybindings.json" = none →
      ∀ b, tryKeybindingsFile repo "keybindingsMac.json" = some b →
        createKeybindingsJson d repo = b) ∧
    (tryKeybindingsFile repo "keybindings.json" = none →
      tryKeybindingsFile repo "keybindingsMac.json" = none →
      createKeybindingsJson d repo = "") := by
  refine ⟨rfl, ?_, ?_, ?_⟩
  · intro b hb
    simp [createKeybindingsJson, keybindingsCandidateFiles, List.findSome?, hb]
  · intro h1 b hb
    simp [createKeybindingsJson, keybindingsCandidateFiles, List.findSome?, h1, hb]
  · intro h1 h2
    simp [createKeybindingsJson, keybindingsCandidateFiles, List.findSome?, h1, h2]

theorem keybindings_candidate_order_witness :
    createKeybindingsJson emptyDevContainer wRepoKeybindingsMacOnly =
      (tryKeybindingsFile wRepoKeybindingsMacOnly "keybindingsMac.json").getD "" :=
  (keybindings_candidate_order emptyDevContainer wRepoKeybindingsMacOnly).2.2.1 rfl
    ((tryKeybindingsFile wRepoKeybindingsMacOnly "keybindingsMac.json").getD "") rfl

/-- Concrete evaluation of the workspace bind-mount for the wDRun
descriptor, through the segment lemmas (the interpolation parser is defined
by well-founded recursion and is evaluated by rewriting). -/
theorem getWorkspaceBinding_wDRun :
    getWorkspaceBinding wDRun = Except.ok "source=/h/p,target=/workspace/p,type=bind" := by
  have h := interpolate_segs (getMapEnv wDRun)
    [TmplSeg.lit "source=", TmplSeg.var "localWorkspaceFolder",
     TmplSeg.lit ",target=/workspace/", TmplSeg.var "localWorkspaceFolderBasename",
     TmplSeg.lit ",type=bind"] (by decide)
  have htext : segsText
      [TmplSeg.lit "source=", TmplSeg.var "localWorkspaceFolder",
       TmplSeg.lit ",target=/workspace/", TmplSeg.var "localWorkspaceFolderBasename",
       TmplSeg.lit ",type=bind"] = defaultWorkspaceMount := by decide
  have hval : segsValue (getMapEnv wDRun)
      [TmplSeg.lit "source=", TmplSeg.var "localWorkspaceFolder",
       TmplSeg.lit ",target=/workspace/", TmplSeg.var "localWorkspaceFolderBasename",
       TmplSeg.lit ",type=bind"] = "source=/h/p,target=/workspace/p,type=bind" := by decide
  rw [htext, hval] at h
  show interpolate (getMapEnv wDRun) defaultWorkspaceMount = _
  exact h

/-- Claim C8 (counterexample): the code builds run --rm -p binding --name
name and then the rest, so the name flag comes after the port-binding flag;
the claimed order (the ephemeral-name flags first, then the port binding)
produces a different argument vector at this concrete descriptor. -/
theorem run_args_name_flag_after_port_binding :
    getWorkspaceBinding wDRun = Except.ok "source=/h/p,target=/workspace/p,type=bind" ∧
    (NewContainerContext "t" wDRun wUrl wName).toOption.map ContainerContext.args ≠
      some (specRunArgsC8 "t" wDRun wUrl wName "source=/h/p,target=/workspace/p,type=bind") := by
  refine ⟨getWorkspaceBinding_wDRun, ?_⟩
  simp only [NewContainerContext, getWorkspaceBinding_wDRun]
  decide

/-- Claim C8 (amended): the run argument list is, in this exact order, the
run subcommand, the ephemeral flag --rm, the port-binding flag -p
0.0.0.0:port:8080, the name flag --name with the generated name, the
workspace bind-mount --mount (override or interpolated default), the
working-directory flag -w with the resolved workspace folder, every runArgs
entry verbatim in order, one -p flag per forwardPorts entry, a -u flag
exactly when remoteUser is non-empty, and the image tag last. -/
theorem run_args_exact_order (tag : String) (d : DevContainer) (u : ServiceURL)
    (name wb : String) (hwb : getWorkspaceBinding d = Except.ok wb) :
    NewContainerContext tag d u name = Except.ok
      { name := name,
        args := ["run", "--rm", "-p", "0.0.0.0:" ++ toString u.port ++ ":8080", "--name", name,
            "--mount", wb, "-w", u.workspaceFolder] ++ d.runArgs
          ++ d.forwardPorts.flatMap (fun v => ["-p", v])
          ++ (if d.remoteUser = "" then [] else ["-u", d.remoteUser]) ++ [tag] } ∧
    (∀ c, NewContainerContext tag d u name = Except.ok c → c.args.getLast? = some tag) := by
  constructor
  · simp [NewContainerContext, hwb]
  · intro c hc
    simp only [NewContainerContext, hwb] at hc
    cases hc
    show (_ ++ [tag]).getLast? = some tag
    exact List.getLast?_concat _

theorem run_args_exact_order_witness :
    NewContainerContext "t" wDRun wUrl wName = Except.ok
      { name := wName,
        args := ["run", "--rm", "-p", "0.0.0.0:" ++ toString wUrl.port ++ ":8080", "--name",
            wName, "--mount", "source=/h/p,target=/workspace/p,type=bind", "-w",
            wUrl.workspaceFolder] ++ wDRun.runArgs
          ++ wDRun.forwardPorts.flatMap (fun v => ["-p", v])
          ++ (if wDRun.remoteUser = "" then [] else ["-u", wDRun.remoteUser]) ++ ["t"] } :=
  (run_args_exact_order "t" wDRun wUrl wName "source=/h/p,target=/workspace/p,type=bind"
    getWorkspaceBinding_wDRun).1

theorem string_append_empty (s : String) : s ++ "" = s := by
  apply String.ext
  simp [String.data_append]

/-- Claim C9 (counterexample): a workspaceFolder override referencing an
undefined variable does not make resolution fail; the variable expands to
the empty string and resolution returns ok, contradicting the claimed
InterpolationError for undefined variables. -/
theorem interpolation_undefined_var_yields_empty :
    wDUndefinedVar.workspaceFolder = "${undefinedVariableName}" ∧
    getWorkspaceFolder wDUndefinedVar = Except.ok "" ∧
    ∀ e, getWorkspaceFolder wDUndefinedVar ≠ Except.error e := by
  have h := interpolate_segs (getMapEnv wDUndefinedVar)
    [TmplSeg.var "undefinedVariableName"] (by decide)
  have htext : segsText [TmplSeg.var "undefinedVariableName"] =
      "${undefinedVariableName}" := by decide
  have hval : segsValue (getMapEnv wDUndefinedVar) [TmplSeg.var "undefinedVariableName"] =
      "" := by decide
  rw [htext, hval] at h
  have hmain : getWorkspaceFolder wDUndefinedVar = Except.ok "" := by
    show interpolate (getMapEnv wDUndefinedVar) "${undefinedVariableName}" = _
    exact h
  refine ⟨rfl, hmain, fun e he => ?_⟩
  rw [hmain] at he
  exact Except.noConfusion he

/-- Claim C9 (amended): workspace-folder resolution interpolates
localWorkspaceFolder to the parent directory of the descriptor directory
and localWorkspaceFolderBasename to that directory's base name, applied to
the workspaceFolder override when non-empty and otherwise to the fixed
default template, and every template token is consumed (each segment
renders to its literal text or its variable's value); a variable absent
from the environment renders as the empty string rather than an error. -/
theorem workspace_folder_interpolation (d : DevContainer) :
    (d.workspaceFolder = "" →
      getWorkspaceFolder d = Except.ok ("/workspace/" ++ goBase (goDir d.dirPath))) ∧
    (∀ segs : List TmplSeg, (∀ s ∈ segs, segOk s = true) →
      d.workspaceFolder = segsText segs → d.workspaceFolder ≠ "" →
      getWorkspaceFolder d = Except.ok (segsValue (getMapEnv d) segs)) ∧
    envGet (getMapEnv d) "localWorkspaceFolder" = goDir d.dirPath ∧
    envGet (getMapEnv d) "localWorkspaceFolderBasename" = goBase (goDir d.dirPath) ∧
    (∀ v : String, v ≠ "localWorkspaceFolder" → v ≠ "localWorkspaceFolderBasename" →
      envGet (getMapEnv d) v = "") := by
  refine ⟨?_, ?_, rfl, rfl, ?_⟩
  · intro h
    have hseg := interpolate_segs (getMapEnv d)
      [TmplSeg.lit "/workspace/", TmplSeg.var "localWorkspaceFolderBasename"] (by decide)
    have htext : segsText
        [TmplSeg.lit "/workspace/", TmplSeg.var "localWorkspaceFolderBasename"] =
        defaultWorkspaceFolder := by decide
    rw [htext] at hseg
    simp only [getWorkspaceFolder, if_pos h]
    rw [hseg]
    show Except.ok ("/workspace/" ++ (envGet (getMapEnv d) "localWorkspaceFolderBasename" ++ ""))
      = _
    rw [string_append_empty]
    rfl
  · intro segs hok heq hne
    simp only [getWorkspaceFolder, if_neg hne]
    rw [heq]
    exact interpolate_segs _ segs hok
  · intro v h1 h2
    simp [envGet, getMapEnv, List.find?, Ne.symm h1, Ne.symm h2]

theorem workspace_folder_interpolation_witness :
    getWorkspaceFolder wDWsOverride =
      Except.ok (segsValue (getMapEnv wDWsOverride)
        [TmplSeg.lit "/ws/", TmplSeg.var "localWorkspaceFolder", TmplSeg.lit "/x"]) ∧
    segsValue (getMapEnv wDWsOverride)
      [TmplSeg.lit "/ws/", TmplSeg.var "localWorkspaceFolder", TmplSeg.lit "/x"] =
      "/ws//h/p/x" :=
  ⟨(workspace_folder_interpolation wDWsOverride).2.1
      [TmplSeg.lit "/ws/", TmplSeg.var "localWorkspaceFolder", TmplSeg.lit "/x"]
      (by decide) (by decide) (by decide),
   by decide⟩
